import Mathlib

/-!
Verification of the core of the CryptocurrencyDiscreteEventSimulator repository:
a discrete-event simulator for a proof-of-work blockchain P2P network with
optional selfish / stubborn mining adversaries.

The Python modules under `src/modules` (blockchain.py, network.py,
event_handler.py, simulator.py) are shallowly embedded below:

* Python `dict` (insertion ordered) is embedded as an association list with
  Python's update semantics (`PyDict`).
* `float` money amounts and timestamps are embedded as exact rationals (`Rat`).
* sha256 content hashes are embedded as an injective pairing on the hashed
  fields; the spec assumes collision resistance and uses hashes only as ids.
* Stateful methods become functions `state → state × result`.
-/

namespace Crypto

/-! ## Python dictionaries as insertion-ordered association lists -/

namespace PyDict

/-- Python `d[k]` as an optional lookup (`None` encodes a `KeyError`). -/
def get {α : Type} (d : List (Nat × α)) (k : Nat) : Option α :=
  match d with
  | [] => none
  | (k2, v) :: rest => if k2 = k then some v else get rest k

/-- Python `k in d`. -/
def contains {α : Type} (d : List (Nat × α)) (k : Nat) : Bool :=
  (get d k).isSome

/-- Python `d[k] = v`: update in place when the key exists, else append. -/
def set {α : Type} (d : List (Nat × α)) (k : Nat) (v : α) : List (Nat × α) :=
  match d with
  | [] => [(k, v)]
  | (k2, w) :: rest => if k2 = k then (k2, v) :: rest else (k2, w) :: set rest k v

/-- Python `del d[k]`.  Every `del` in the source is executed on a present key
(an absent key would raise `KeyError`); on an absent key this is the identity. -/
def erase {α : Type} (d : List (Nat × α)) (k : Nat) : List (Nat × α) :=
  match d with
  | [] => []
  | (k2, w) :: rest => if k2 = k then rest else (k2, w) :: erase rest k

end PyDict

/-! ## Data model (blockchain.py) -/

/-- `Utxo` (blockchain.py:8-22).  The content-derived sha256 id is carried as an
abstract natural number. -/
structure Utxo where
  id : Nat
  transaction_id : Nat
  owner : Int
  value : Rat
  deriving DecidableEq, Repr

/-- `Transaction` (blockchain.py:28-54).  `input_utxos`/`output_utxos` are set by
`add_utxos`; the genesis transactions built in simulator.py never receive them,
and no claim below touches a genesis transaction's utxo lists. -/
structure Transaction where
  id : Nat
  payer : Int
  payee : Int
  value : Rat
  timestamp : Rat
  input_utxos : List Utxo
  output_utxos : List Utxo
  deriving DecidableEq, Repr

/-- `Block` (blockchain.py:67-90).  `block_position` is a depth (genesis = 0);
`parent_block_id` is `none` exactly for the genesis block. -/
structure Block where
  id : Nat
  timestamp : Rat
  transactions : List Transaction
  parent_block_id : Option Nat
  block_position : Nat
  miner_utxo : Utxo
  deriving DecidableEq, Repr

/-- Injective stand-in for the sha256 block id over (timestamp, transaction ids)
(blockchain.py:84); collision resistance is an assumption of the spec. -/
def blockIdHash (timestamp : Rat) (txIds : List Nat) : Nat :=
  Nat.pair (Nat.pair timestamp.num.natAbs timestamp.den)
    (txIds.foldl (fun a b => Nat.pair a b + 1) 0)

/-- Stand-in for the sha256 utxo id over (owner, value, transaction_id)
(blockchain.py:19). -/
def utxoIdHash (owner : Int) (value : Rat) (transaction_id : Nat) : Nat :=
  Nat.pair owner.natAbs (Nat.pair value.num.natAbs transaction_id)

/-- `Block.__init__` (blockchain.py:70-90): derives the id from the timestamp and
the transaction ids and mints the miner's coinbase utxo of value 50. -/
def Block.init (parent_block_id : Option Nat) (block_position : Nat)
    (timestamp : Rat) (transactions : List Transaction) (block_creator : Int) :
    Block :=
  let bid := blockIdHash timestamp (transactions.map (fun t => t.id))
  { id := bid
    timestamp := timestamp
    transactions := transactions
    parent_block_id := parent_block_id
    block_position := block_position
    miner_utxo :=
      { id := utxoIdHash block_creator 50 bid
        transaction_id := bid
        owner := block_creator
        value := 50 } }

/-- `Blockchain` (blockchain.py:103-115): block tree keyed by id plus the tip.
`cached_blocks` is the orphan table: it is read by the source at
event_handler.py:159 (`block.id in event.node.blockchain.cached_blocks`) but its
initialization and insertion are not in src; the field is modelled from the
spec (§4.4: blocks whose parent has not arrived are parked keyed by the missing
parent id). -/
structure Blockchain where
  root : Block
  current_block : Block
  blocks : List (Nat × Block)
  cached_blocks : List (Nat × Block)
  deriving DecidableEq, Repr

/-- `Blockchain.__init__` (blockchain.py:106-115). -/
def Blockchain.init (genesis_block : Block) : Blockchain :=
  { root := genesis_block
    current_block := genesis_block
    blocks := [(genesis_block.id, genesis_block)]
    cached_blocks := [] }

/-- `Blockchain.add_block` (blockchain.py:117-134): refuse when the parent id is
not a key of the store (`None` is never a key); otherwise insert the child and
promote it to tip exactly when its parent is the current tip or its position
exceeds the current tip's position by more than one. -/
def Blockchain.add_block (bc : Blockchain) (parent_block_id : Option Nat)
    (child_block : Block) : Blockchain × Bool :=
  match parent_block_id with
  | none => (bc, false)
  | some pid =>
    if PyDict.contains bc.blocks pid then
      let blocks2 := PyDict.set bc.blocks child_block.id child_block
      if child_block.parent_block_id = some bc.current_block.id ∨
          child_block.block_position > bc.current_block.block_position + 1 then
        ({ bc with blocks := blocks2, current_block := child_block }, true)
      else
        ({ bc with blocks := blocks2 }, true)
    else
      (bc, false)

/-! ## Python keyword-call binding (for the Simulator constructor) -/

/-- Parameters of a Python function: all positional-or-keyword parameter names
and the subset that has no default value. -/
structure PyParams where
  params : List String
  required : List String
  deriving DecidableEq, Repr

/-- A Python call that passes every argument by keyword binds successfully
(raises no `TypeError`) iff every keyword names a declared parameter and every
parameter without a default is bound. -/
def pyKwCallOk (ps : PyParams) (kwargs : List String) : Bool :=
  kwargs.all (fun k => ps.params.contains k) &&
    ps.required.all (fun k => kwargs.contains k)

/-- Parameters of `Block.__init__` (blockchain.py:70), `self` excluded: all five
are required and there is no `account_balance` parameter. -/
def blockInitParams : PyParams :=
  { params := ["parent_block_id", "block_position", "timestamp", "transactions",
               "block_creator"]
    required := ["parent_block_id", "block_position", "timestamp", "transactions",
                 "block_creator"] }

/-- Parameters of `Node.__init__` (network.py:12-13), `self` excluded: `utxo_set`
is required and there is no `node_label` parameter. -/
def nodeInitParams : PyParams :=
  { params := ["node_id", "node_type", "genesis_block", "utxo_set", "hash",
               "MAX_BLOCK_LENGTH"]
    required := ["node_id", "node_type", "genesis_block", "utxo_set", "hash",
                 "MAX_BLOCK_LENGTH"] }

/-- Keywords of the genesis-block construction in `Simulator.create_nodes`
(simulator.py:115-122). -/
def genesisBlockCallKwargs : List String :=
  ["parent_block_id", "block_position", "timestamp", "transactions",
   "block_creator", "account_balance"]

/-- Keywords of the adversary `Node(...)` call in `Simulator.create_nodes`
(simulator.py:130-136). -/
def advNodeCallKwargs : List String :=
  ["node_id", "node_type", "genesis_block", "hash", "MAX_BLOCK_LENGTH",
   "node_label"]

/-- Keywords of the honest `Node(...)` calls in `Simulator.create_nodes`
(simulator.py:141-170). -/
def honestNodeCallKwargs : List String :=
  ["node_id", "node_type", "genesis_block", "hash", "MAX_BLOCK_LENGTH"]

/-! ## Node state machine (network.py) -/

/-- The mutable state of a `Node` (network.py:12-41).  `block_queue` is the
adversary's private queue: it is appended to at event_handler.py:129 and
consumed by `receiveBlockSelfish` / `receiveBlockStubborn`; its initialization
(to the empty list) is not in src and is modelled from the spec (§4.6). -/
structure NodeState where
  id : Int
  blockchain : Blockchain
  utxo_set : List (Nat × Utxo)
  own_utxo : List (Nat × Utxo)
  transactions : List (Nat × Transaction)
  peers : List Int
  block_queue : List Block
  MAX_BLOCK_LENGTH : Nat
  deriving DecidableEq, Repr

namespace Node

/-- `Node.verify_transaction` (network.py:203-231): every input utxo must be a
key of the miner's utxo set, the input and output totals must agree, and the
input total must be non-negative. -/
def verify_transaction (transaction : Transaction)
    (utxo_set : List (Nat × Utxo)) : Bool :=
  if transaction.input_utxos.all (fun u => PyDict.contains utxo_set u.id) then
    let total_incoming : Rat :=
      transaction.input_utxos.foldl (fun s u => s + u.value) 0
    let total_outgoing : Rat :=
      transaction.output_utxos.foldl (fun s u => s + u.value) 0
    if total_incoming ≠ total_outgoing ∨ total_incoming < 0 then false else true
  else false

/-- `Node.execute_transaction` (network.py:233-250): consume the input utxos and
mint the output utxos, mirroring owned utxos into `own_utxo`. -/
def execute_transaction (self_id : Int) (transaction : Transaction)
    (utxo_set own_utxo : List (Nat × Utxo)) :
    List (Nat × Utxo) × List (Nat × Utxo) :=
  let afterIn := transaction.input_utxos.foldl
    (fun (p : List (Nat × Utxo) × List (Nat × Utxo)) u =>
      (PyDict.erase p.1 u.id,
       if u.owner = self_id ∧ PyDict.contains p.2 u.id then PyDict.erase p.2 u.id
       else p.2))
    (utxo_set, own_utxo)
  transaction.output_utxos.foldl
    (fun (p : List (Nat × Utxo) × List (Nat × Utxo)) u =>
      (PyDict.set p.1 u.id u,
       if u.owner = self_id then PyDict.set p.2 u.id u else p.2))
    afterIn

/-- `Node.remove_transaction` (network.py:252-269): inverse of
`execute_transaction` — delete the outputs, restore the inputs. -/
def remove_transaction (self_id : Int) (transaction : Transaction)
    (utxo_set own_utxo : List (Nat × Utxo)) :
    List (Nat × Utxo) × List (Nat × Utxo) :=
  let afterOut := transaction.output_utxos.foldl
    (fun (p : List (Nat × Utxo) × List (Nat × Utxo)) u =>
      (PyDict.erase p.1 u.id,
       if u.owner = self_id ∧ PyDict.contains p.2 u.id then PyDict.erase p.2 u.id
       else p.2))
    (utxo_set, own_utxo)
  transaction.input_utxos.foldl
    (fun (p : List (Nat × Utxo) × List (Nat × Utxo)) u =>
      (PyDict.set p.1 u.id u,
       if u.owner = self_id then PyDict.set p.2 u.id u else p.2))
    afterOut

/-- Inner loop of `Node.verify_block` (network.py:284-291): collect the input
utxo ids of one transaction into the running duplicate check, failing on a
repeated id. -/
def collectInputIds : List Utxo → List Nat → Option (List Nat)
  | [], seen => some seen
  | u :: rest, seen =>
    if seen.contains u.id then none else collectInputIds rest (seen ++ [u.id])

/-- `Node.verify_block` (network.py:271-294): reject a block containing a
duplicated input utxo or a transaction that fails `verify_transaction`. -/
def verify_block (block : Block) (utxo_set : List (Nat × Utxo)) : Bool :=
  go block.transactions []
where
  go : List Transaction → List Nat → Bool
  | [], _ => true
  | txn :: rest, seen =>
    match collectInputIds txn.input_utxos seen with
    | none => false
    | some seen2 =>
      if verify_transaction txn utxo_set then go rest seen2 else false

/-- `Node.execute_block_utxo` (network.py:296-320): apply every transaction of
the block, dropping it from the pending pool, then mint the coinbase utxo. -/
def execute_block_utxo (self_id : Int) (block : Block)
    (utxo_set : List (Nat × Utxo)) (transactions : List (Nat × Transaction))
    (own_utxo : List (Nat × Utxo)) :
    List (Nat × Utxo) × List (Nat × Transaction) × List (Nat × Utxo) :=
  let step := block.transactions.foldl
    (fun (acc : List (Nat × Utxo) × List (Nat × Transaction) × List (Nat × Utxo))
        txn =>
      let txns := if PyDict.contains acc.2.1 txn.id then PyDict.erase acc.2.1 txn.id
                  else acc.2.1
      let p := execute_transaction self_id txn acc.1 acc.2.2
      (p.1, txns, p.2))
    (utxo_set, transactions, own_utxo)
  let us := PyDict.set step.1 block.miner_utxo.id block.miner_utxo
  let ow := if block.miner_utxo.owner = self_id then
              PyDict.set step.2.2 block.miner_utxo.id block.miner_utxo
            else step.2.2
  (us, step.2.1, ow)

/-- `Node.remove_block_utxo` (network.py:322-343): undo every transaction of the
block, restoring it to the pending pool, then delete the coinbase utxo. -/
def remove_block_utxo (self_id : Int) (block : Block)
    (utxo_set : List (Nat × Utxo)) (transactions : List (Nat × Transaction))
    (own_utxo : List (Nat × Utxo)) :
    List (Nat × Utxo) × List (Nat × Transaction) × List (Nat × Utxo) :=
  let step := block.transactions.foldl
    (fun (acc : List (Nat × Utxo) × List (Nat × Transaction) × List (Nat × Utxo))
        txn =>
      let p := remove_transaction self_id txn acc.1 acc.2.2
      (p.1, PyDict.set acc.2.1 txn.id txn, p.2))
    (utxo_set, transactions, own_utxo)
  let us := PyDict.erase step.1 block.miner_utxo.id
  let ow := if block.miner_utxo.owner = self_id ∧
               PyDict.contains step.2.2 block.miner_utxo.id then
              PyDict.erase step.2.2 block.miner_utxo.id
            else step.2.2
  (us, step.2.1, ow)

/-- Working state threaded through `create_new_utxo_set`: the deep copies of the
utxo set, the pending pool and the owned utxos. -/
abbrev WorkState :=
  List (Nat × Utxo) × List (Nat × Transaction) × List (Nat × Utxo)

/-- First loop of `Node.create_new_utxo_set` (network.py:393-399): walk the
current chain upwards, undoing blocks, until its length drops below the new
block's position.  The Python `while` terminates because positions strictly
decrease along parent links; the fuel bounds its iterations and is chosen
large enough for every well-formed store. -/
def removeOldChain (s : NodeState) (targetPos : Nat) :
    Nat → Block → WorkState → Option (Block × WorkState)
  | 0, _, _ => none
  | fuel + 1, block_oc, st =>
    if targetPos ≤ block_oc.block_position then
      let st2 := remove_block_utxo s.id block_oc st.1 st.2.1 st.2.2
      match block_oc.parent_block_id with
      | none => none
      | some pid =>
        match PyDict.get s.blockchain.blocks pid with
        | none => none
        | some p => removeOldChain s targetPos fuel p st2
    else some (block_oc, st)

/-- Second loop of `Node.create_new_utxo_set` (network.py:401-409): walk both
chains upwards until the fork point, undoing old-chain blocks and recording the
new-chain block ids to be replayed. -/
def walkToFork (s : NodeState) :
    Nat → Block → Block → List Nat → WorkState → Option (List Nat × WorkState)
  | 0, _, _, _, _ => none
  | fuel + 1, block_oc, block_nc, acc, st =>
    if block_oc.id = block_nc.id then some (acc, st)
    else
      let st2 := remove_block_utxo s.id block_oc st.1 st.2.1 st.2.2
      let acc2 := acc ++ [block_nc.id]
      match block_oc.parent_block_id, block_nc.parent_block_id with
      | some pidO, some pidN =>
        match PyDict.get s.blockchain.blocks pidO,
              PyDict.get s.blockchain.blocks pidN with
        | some pO, some pN => walkToFork s fuel pO pN acc2 st2
        | _, _ => none
      | _, _ => none

/-- Third loop of `Node.create_new_utxo_set` (network.py:411-413), on the
already-reversed id list: `list.pop()` pops from the end, so the recorded
new-chain blocks are replayed from the fork point upwards. -/
def replayRev (s : NodeState) : List Nat → WorkState → Option WorkState
  | [], st => some st
  | bid :: rest, st =>
    match PyDict.get s.blockchain.blocks bid with
    | none => none
    | some b =>
      replayRev s rest (execute_block_utxo s.id b st.1 st.2.1 st.2.2)

/-- `Node.create_new_utxo_set` (network.py:379-415): build the utxo set, pending
pool and owned-utxo view of the fork chain ending at `block.parent`, starting
from deep copies of the node's current state. -/
def create_new_utxo_set (s : NodeState) (block : Block) : Option WorkState :=
  let st0 : WorkState := (s.utxo_set, s.transactions, s.own_utxo)
  let fuel := s.blockchain.current_block.block_position + block.block_position +
              s.blockchain.blocks.length + 2
  match removeOldChain s block.block_position fuel s.blockchain.current_block st0 with
  | none => none
  | some (block_oc, st1) =>
    match block.parent_block_id with
    | none => none
    | some pid =>
      match PyDict.get s.blockchain.blocks pid with
      | none => none
      | some pStart =>
        match walkToFork s fuel block_oc pStart [] st1 with
        | none => none
        | some (toAdd, st2) => replayRev s toAdd.reverse st2

/-- `Node.receive_block` (network.py:345-377).  Drops duplicates and blocks with
an unknown parent; a block off the current tip goes through the fork path
(rebuild the working state, verify, add, and swap the live state only when the
new position is exactly the old tip position + 1); a block on the tip is
verified against the live utxo set and executed. -/
def receive_block (s : NodeState) (block : Block) : NodeState × Bool :=
  let dup := PyDict.contains s.blockchain.blocks block.id
  let parentIn := match block.parent_block_id with
    | none => false
    | some pid => PyDict.contains s.blockchain.blocks pid
  if dup || !parentIn then (s, false)
  else
    let latest := s.blockchain.current_block.block_position
    if block.parent_block_id ≠ some s.blockchain.current_block.id then
      match create_new_utxo_set s block with
      | none => (s, false)
      | some st =>
        if verify_block block st.1 then
          let r := s.blockchain.add_block block.parent_block_id block
          let s1 := { s with blockchain := r.1 }
          if block.block_position = latest + 1 then
            let p := execute_block_utxo s.id block st.1 st.2.1 st.2.2
            ({ s1 with utxo_set := p.1, transactions := p.2.1, own_utxo := p.2.2 },
             true)
          else (s1, true)
        else (s, false)
    else if block.block_position = latest + 1 then
      if verify_block block s.utxo_set then
        let r := s.blockchain.add_block block.parent_block_id block
        let p := execute_block_utxo s.id block s.utxo_set s.transactions s.own_utxo
        ({ s with blockchain := r.1, utxo_set := p.1, transactions := p.2.1,
                  own_utxo := p.2.2 }, true)
      else (s, false)
    else (s, false)

/-- Modelled from the spec: the orphan-table insertion.  src's `receive_block`
(network.py:346-347) returns `False` for a block whose parent is absent without
parking it, yet the orphan table `blockchain.cached_blocks` is read at
event_handler.py:159; the parking write is not in src.  Per spec §4.4, a
duplicate is ignored and a block with an unknown parent is parked keyed by its
parent id (not gossiped); otherwise the block goes through `receive_block`. -/
def receive_block_cached (s : NodeState) (block : Block) : NodeState × Bool :=
  if PyDict.contains s.blockchain.blocks block.id then (s, false)
  else
    match block.parent_block_id with
    | none => (s, false)
    | some pid =>
      if PyDict.contains s.blockchain.blocks pid then receive_block s block
      else
        ({ s with blockchain :=
            { s.blockchain with
                cached_blocks := PyDict.set s.blockchain.cached_blocks pid block } },
         false)

/-- `Node.mine_block` (network.py:155-168): stamp the candidate, verify it
against the live utxo set, add it to the chain and execute it. -/
def mine_block (s : NodeState) (block : Block) (timestamp : Rat) :
    NodeState × Bool :=
  let block := { block with timestamp := timestamp }
  if verify_block block s.utxo_set then
    let r := s.blockchain.add_block block.parent_block_id block
    if r.2 then
      let s1 := { s with blockchain := r.1 }
      let p := execute_block_utxo s.id block s1.utxo_set s1.transactions s1.own_utxo
      ({ s1 with utxo_set := p.1, transactions := p.2.1, own_utxo := p.2.2 }, true)
    else ({ s with blockchain := r.1 }, false)
  else (s, false)

/-- Loop of `Node.create_block` (network.py:176-192) over a snapshot of the
pending pool: collect the input utxo ids (the duplicate branch is a no-op
`continue` of the inner loop), keep transactions that verify, delete from the
pool those that do not, and stop after the examined-transaction counter reaches
`MAX_BLOCK_LENGTH - 1` (an equality test). -/
def cbLoop (utxo_set : List (Nat × Utxo)) (maxLen : Nat) :
    List (Nat × Transaction) → Nat → List Nat →
    List Transaction × List (Nat × Transaction)
  | [], _, _ => ([], [])
  | (tid, txn) :: rest, counter, utxo_block =>
    let ub2 := txn.input_utxos.foldl
      (fun acc u => if acc.contains u.id then acc else acc ++ [u.id]) utxo_block
    let ok := verify_transaction txn utxo_set
    if counter + 1 = maxLen - 1 then
      (if ok then [txn] else [], if ok then (tid, txn) :: rest else rest)
    else
      let r := cbLoop utxo_set maxLen rest (counter + 1) ub2
      (if ok then txn :: r.1 else r.1, if ok then (tid, txn) :: r.2 else r.2)

/-- `Node.create_block` (network.py:170-201): build a candidate block on the
current tip from the pending pool (mutating the pool as `cbLoop` does). -/
def create_block (s : NodeState) : Block × NodeState :=
  let r := cbLoop s.utxo_set s.MAX_BLOCK_LENGTH s.transactions 0 []
  let block := Block.init (some s.blockchain.current_block.id)
    (s.blockchain.current_block.block_position + 1) (-1) r.1 s.id
  (block, { s with transactions := r.2 })

/-- `Node.receive_txn` (network.py:131-151): drop a transaction already pending
or present in the tip block, otherwise append it to the pending pool. -/
def receive_txn (s : NodeState) (transaction : Transaction) :
    NodeState × Bool :=
  if PyDict.contains s.transactions transaction.id then (s, false)
  else if s.blockchain.current_block.transactions.any
      (fun t => t.id = transaction.id) then (s, false)
  else
    ({ s with transactions := PyDict.set s.transactions transaction.id transaction },
     true)

end Node

/-! ## Event handler (event_handler.py) -/

/-- A Python value that can stand in the `event_creator` slot of an event: the
source stores either a plain node id (`int`) or a `Node` object. -/
inductive PyVal where
  | intVal : Int → PyVal
  | nodeObj : Int → PyVal
  deriving DecidableEq, Repr

/-- Python `==` between `peer_id` (an `int`) and the `event_creator` value: two
ints compare by value; `int == Node-object` is `False` because `Node` defines
no `__eq__` (network.py:9-41), so the comparison falls back to identity. -/
def pyEq (peer_id : Int) (v : PyVal) : Bool :=
  match v with
  | .intVal j => peer_id = j
  | .nodeObj _ => false

namespace EventHandler

/-- Recipients scheduled by the re-gossip loops of the `RECV_TXN` handler
(event_handler.py:94-106) and of `propogateBlock` (event_handler.py:242-255):
every peer whose id is not `==` to the `event_creator` slot. -/
def gossipRecipients (peers : List Int) (event_creator : PyVal) : List Int :=
  peers.filter (fun p => !(pyEq p event_creator))

/-- `RECV_TXN` dispatch (event_handler.py:90-106): on a fresh transaction,
insert it into the pool and schedule a delivery to each computed recipient. -/
def recvTxnStep (s : NodeState) (transaction : Transaction)
    (event_creator : PyVal) : NodeState × List Int :=
  let r := Node.receive_txn s transaction
  if r.2 then (r.1, gossipRecipients r.1.peers event_creator)
  else (r.1, [])

/-- The `while event.node.receive_block(block)` loop of `receiveBlockHonest`
(event_handler.py:150-162), returning the final node state, the blocks handed
to `propogateBlock` in order, and whether some accepted block became the tip.
The fuel bounds the orphan-chain length. -/
def receiveBlockLoop : Nat → NodeState → Block → NodeState × List Block × Bool
  | 0, s, _ => (s, [], false)
  | fuel + 1, s, block =>
    let r := Node.receive_block_cached s block
    if r.2 then
      let s1 := r.1
      let flag := block.id = s1.blockchain.current_block.id
      match PyDict.get s1.blockchain.cached_blocks block.id with
      | none => (s1, [block], flag)
      | some next =>
        let r2 := receiveBlockLoop fuel s1 next
        (r2.1, block :: r2.2.1, flag || r2.2.2)
    else (r.1, [], false)

/-- `EventHandler.receiveBlockHonest` (event_handler.py:147-171): run the
receive loop and, when some accepted block became the tip, build the next
mining candidate (mutating the pool) and schedule its `END_MINING`; the
returned option is the scheduled candidate. -/
def receiveBlockHonest (s : NodeState) (block : Block) (fuel : Nat) :
    NodeState × List Block × Option Block :=
  let r := receiveBlockLoop fuel s block
  if r.2.2 then
    let c := Node.create_block r.1
    (c.2, r.2.1, some c.1)
  else (r.1, r.2.1, none)

/-- Body of one iteration of `receiveBlockSelfish` after a successful receive
(event_handler.py:178-194): empty the private queue when the received block
became the tip; then release the whole queue when it holds exactly two blocks
whose head matches the received position, or just the head when the queue is
non-empty with a matching head.  Returns the new state and the released blocks
in release order. -/
def selfishIter (s1 : NodeState) (block : Block) : NodeState × List Block :=
  let s2 := if block.id = s1.blockchain.current_block.id then
              { s1 with block_queue := [] }
            else s1
  match s2.block_queue with
  | [] => (s2, [])
  | q0 :: qrest =>
    if s2.block_queue.length = 2 ∧ q0.block_position = block.block_position then
      ({ s2 with block_queue := [] }, q0 :: qrest)
    else if q0.block_position = block.block_position then
      ({ s2 with block_queue := qrest }, [q0])
    else (s2, [])

/-- One pass of `receiveBlockSelfish` (event_handler.py:173-200) for a single
incoming block: attempt the receive and, on success, run the queue policy.
Returns the state, the released blocks, and whether the block became the tip. -/
def selfishStep (s : NodeState) (block : Block) : NodeState × List Block × Bool :=
  let r := Node.receive_block_cached s block
  if r.2 then
    let flag := block.id = r.1.blockchain.current_block.id
    let p := selfishIter r.1 block
    (p.1, p.2, flag)
  else (r.1, [], false)

/-- The full `while` loop of `receiveBlockSelfish` (event_handler.py:177-200),
chaining through the orphan table like the honest loop. -/
def selfishLoop : Nat → NodeState → Block → NodeState × List Block × Bool
  | 0, s, _ => (s, [], false)
  | fuel + 1, s, block =>
    let r := Node.receive_block_cached s block
    if r.2 then
      let flag := block.id = r.1.blockchain.current_block.id
      let p := selfishIter r.1 block
      match PyDict.get p.1.blockchain.cached_blocks block.id with
      | none => (p.1, p.2, flag)
      | some next =>
        let r2 := selfishLoop fuel p.1 next
        (r2.1, p.2 ++ r2.2.1, flag || r2.2.2)
    else (r.1, [], false)

/-- `END_MINING` dispatch (event_handler.py:117-137): the candidate is processed
only when its position is exactly the current tip position + 1 and `mine_block`
succeeds; an honest node hands the mined block to `propogateBlock`, an
adversary appends it to its private queue; in either case the next candidate is
built and scheduled.  Otherwise the event is dropped with no effect.  Returns
the state, the blocks gossiped, and the next scheduled candidate. -/
def endMiningStep (s : NodeState) (node_label : Nat) (block : Block) (t : Rat) :
    NodeState × List Block × Option Block :=
  let latest := s.blockchain.current_block.block_position
  if block.block_position = latest + 1 then
    let r := Node.mine_block s block t
    if r.2 then
      let minedBlock := { block with timestamp := t }
      let s2 := if node_label = 0 then r.1
                else if node_label = 1 ∨ node_label = 2 then
                  { r.1 with block_queue := r.1.block_queue ++ [minedBlock] }
                else r.1
      let gossiped := if node_label = 0 then [minedBlock] else []
      let c := Node.create_block s2
      (c.2, gossiped, some c.1)
    else (r.1, [], none)
  else (s, [], none)

end EventHandler

/-! ## Simulator driver (simulator.py) -/

namespace Simulator

/-- The per-low-hash-node hashing power computed at simulator.py:125:
`(1 - adv_hash) / (10*(num_nodes-1) - 9*num_low_hash)`. -/
def hash_power (num_nodes num_low_hash : Nat) (adv_hash : Rat) : Rat :=
  (1 - adv_hash) / (10 * ((num_nodes : Rat) - 1) - 9 * (num_low_hash : Rat))

/-- The hashing power `Simulator.create_nodes` (simulator.py:124-170) assigns to
node `i`: the adversary (node 0, present iff `attack_type ≠ 0`) gets
`adv_hash`; a low-hash honest node gets `hash_power`; every other honest node
gets ten times that. -/
def nodeHash (attack_type : Nat) (adv_hash : Rat) (num_nodes num_low_hash : Nat)
    (low_hash_p : List Nat) (i : Nat) : Rat :=
  if attack_type ≠ 0 ∧ i = 0 then adv_hash
  else if low_hash_p.contains i then hash_power num_nodes num_low_hash adv_hash
  else 10 * hash_power num_nodes num_low_hash adv_hash

/-- Sum of the hashing powers of all `num_nodes` nodes. -/
def totalHash (attack_type : Nat) (adv_hash : Rat) (num_nodes num_low_hash : Nat)
    (low_hash_p : List Nat) : Rat :=
  ((List.range num_nodes).map
    (nodeHash attack_type adv_hash num_nodes num_low_hash low_hash_p)).sum

/-- An event as ordered by the scheduler: `Event.__lt__` (event_handler.py:26-27)
compares only the times; the payload is abstracted into a tag. -/
structure SimEvent where
  time : Rat
  tag : Nat
  deriving DecidableEq, Repr

/-- `heapq.heappop` under `Event.__lt__`: remove and return an event of minimal
time (the first such, a fixed deterministic tie-break). -/
def popEarliest : List SimEvent → Option (SimEvent × List SimEvent)
  | [] => none
  | e :: rest =>
    match popEarliest rest with
    | none => some (e, [])
    | some (m, rest2) =>
      if e.time ≤ m.time then some (e, rest) else some (m, e :: rest2)

/-- The inner `while current_time < period and self.event_queue != []` loop of
`Simulator.run_simulation` (simulator.py:330-333): pop the earliest event,
advance the clock to its time, dispatch it (the handler returns the events it
schedules), and append it to the dispatch log.  The handler
(`EventHandler.handle_event`) is the driver's collaborator and is a parameter;
the fuel bounds the number of iterations. -/
def innerLoop (handler : SimEvent → List SimEvent) :
    Nat → Rat → Rat → List SimEvent → List SimEvent →
    Rat × List SimEvent × List SimEvent
  | 0, _, ct, q, acc => (ct, q, acc)
  | fuel + 1, period, ct, q, acc =>
    if ct < period then
      match popEarliest q with
      | none => (ct, q, acc)
      | some (e, q2) => innerLoop handler fuel period e.time (q2 ++ handler e) (acc ++ [e])
    else (ct, q, acc)

/-- `period = int(simulation_time/20) if simulation_time > 20 else 1`
(simulator.py:328). -/
def periodStep (simulation_time : Rat) : Nat :=
  if simulation_time > 20 then (simulation_time / 20).floor.toNat else 1

/-- `range(period, int(simulation_time)+1, period)` (simulator.py:329) for a
positive simulation time: the multiples of the period step up to
`⌊simulation_time⌋`. -/
def periodsList (simulation_time : Rat) : List Nat :=
  let p := periodStep simulation_time
  (List.range (simulation_time.floor.toNat / p)).map (fun k => (k + 1) * p)

/-- The final period boundary the driver runs to: the largest multiple of the
period step not exceeding `⌊simulation_time⌋` (the last element of
`periodsList`, or 0 when that list is empty). -/
def periodFinal (simulation_time : Rat) : Nat :=
  (simulation_time.floor.toNat / periodStep simulation_time) *
    periodStep simulation_time

/-- `Simulator.run_simulation` (simulator.py:320-334): starting from clock 0,
run the inner loop once per period boundary, threading the clock and queue, and
return the sequence of dispatched events in dispatch order. -/
def run_simulation (handler : SimEvent → List SimEvent) (fuel : Nat)
    (simulation_time : Rat) (q0 : List SimEvent) : List SimEvent :=
  ((periodsList simulation_time).foldl
    (fun st period => innerLoop handler fuel (period : Rat) st.1 st.2.1 st.2.2)
    ((0 : Rat), q0, ([] : List SimEvent))).2.2

end Simulator

/-! ## Concrete states

Small hand-built node states used to evaluate the embedded operations at
explicit inputs.  Ids are chosen distinct; all blocks carry empty transaction
lists so that verification succeeds trivially. -/

/-- Coinbase utxo of the genesis block. -/
def gU : Utxo := { id := 100, transaction_id := 0, owner := -1, value := 50 }

/-- Genesis block (position 0). -/
def gB : Block :=
  { id := 0, timestamp := 0, transactions := [], parent_block_id := none,
    block_position := 0, miner_utxo := gU }

/-- Coinbase utxo of block `aB`. -/
def aU : Utxo := { id := 101, transaction_id := 1, owner := 5, value := 50 }

/-- A block of position 1 on the genesis, mined by node 5: the first-seen tip. -/
def aB : Block :=
  { id := 1, timestamp := 10, transactions := [], parent_block_id := some 0,
    block_position := 1, miner_utxo := aU }

/-- Coinbase utxo of block `bBlk`. -/
def bU : Utxo := { id := 102, transaction_id := 2, owner := 6, value := 50 }

/-- A sibling block of position 1 on the genesis, mined by node 6. -/
def bBlk : Block :=
  { id := 2, timestamp := 11, transactions := [], parent_block_id := some 0,
    block_position := 1, miner_utxo := bU }

/-- Coinbase utxo of block `cBlk`. -/
def cU : Utxo := { id := 103, transaction_id := 3, owner := 6, value := 50 }

/-- A block of position 2 on `bBlk`: it overtakes the position-1 tip by one. -/
def cBlk : Block :=
  { id := 3, timestamp := 12, transactions := [], parent_block_id := some 2,
    block_position := 2, miner_utxo := cU }

/-- Honest node 7 whose store holds the genesis and `aB`, with `aB` as tip. -/
def forkS0 : NodeState :=
  { id := 7
    blockchain :=
      { root := gB, current_block := aB, blocks := [(0, gB), (1, aB)],
        cached_blocks := [] }
    utxo_set := [(100, gU), (101, aU)]
    own_utxo := []
    transactions := []
    peers := [1, 2]
    block_queue := []
    MAX_BLOCK_LENGTH := 10 }

/-- `forkS0` after receiving the sibling block `bBlk`. -/
def forkS1 : NodeState := (Node.receive_block forkS0 bBlk).1

/-- `forkS1` after receiving `cBlk`, which extends the sibling branch to
position 2 while the tip sits at position 1. -/
def forkS2 : NodeState := (Node.receive_block forkS1 cBlk).1

/-- Honest node 8 whose store holds only the genesis. -/
def orphanS0 : NodeState :=
  { id := 8
    blockchain :=
      { root := gB, current_block := gB, blocks := [(0, gB)],
        cached_blocks := [] }
    utxo_set := [(100, gU)]
    own_utxo := []
    transactions := []
    peers := [1, 2]
    block_queue := []
    MAX_BLOCK_LENGTH := 10 }

/-- `orphanS0` after `cBlk` arrived before its parent `bBlk`. -/
def orphanS1 : NodeState := (Node.receive_block_cached orphanS0 cBlk).1

/-- `orphanS1` after the parent `bBlk` arrived and was accepted (promoting it
to tip). -/
def orphanS2 : NodeState := (Node.receive_block_cached orphanS1 bBlk).1

/-- `orphanS2` after the parked orphan `cBlk` was recursively accepted. -/
def orphanS3 : NodeState := (Node.receive_block_cached orphanS2 cBlk).1

/-- Coinbase utxo of the adversary block `adv1B`. -/
def adv1U : Utxo := { id := 111, transaction_id := 11, owner := 0, value := 50 }

/-- First privately-mined adversary block (position 1 on the genesis). -/
def adv1B : Block :=
  { id := 11, timestamp := 20, transactions := [], parent_block_id := some 0,
    block_position := 1, miner_utxo := adv1U }

/-- Coinbase utxo of the adversary block `adv2B`. -/
def adv2U : Utxo := { id := 112, transaction_id := 12, owner := 0, value := 50 }

/-- Second privately-mined adversary block (position 2 on `adv1B`). -/
def adv2B : Block :=
  { id := 12, timestamp := 21, transactions := [], parent_block_id := some 11,
    block_position := 2, miner_utxo := adv2U }

/-- An honest block of position 1 on the genesis, mined by node 3, arriving at
the adversary while it holds a two-block private lead. -/
def honestB : Block :=
  { id := 21, timestamp := 22, transactions := [], parent_block_id := some 0,
    block_position := 1,
    miner_utxo := { id := 121, transaction_id := 21, owner := 3, value := 50 } }

/-- Selfish adversary (node 0) with a private chain of length 2 and both private
blocks still queued. -/
def advS0 : NodeState :=
  { id := 0
    blockchain :=
      { root := gB, current_block := adv2B,
        blocks := [(0, gB), (11, adv1B), (12, adv2B)], cached_blocks := [] }
    utxo_set := [(100, gU), (111, adv1U), (112, adv2U)]
    own_utxo := [(111, adv1U), (112, adv2U)]
    transactions := []
    peers := [1, 2, 3]
    block_queue := [adv1B, adv2B]
    MAX_BLOCK_LENGTH := 10 }

/-- `advS0` after processing the incoming honest block `honestB` (accepted on a
fork without becoming the adversary's tip). -/
def advS1 : NodeState := (Node.receive_block_cached advS0 honestB).1

/-- Input utxo of the pending transaction `poolTxn`. -/
def pIn : Utxo := { id := 200, transaction_id := 400, owner := 9, value := 5 }

/-- Output utxo of the pending transaction `poolTxn`. -/
def pOut : Utxo := { id := 201, transaction_id := 500, owner := 8, value := 5 }

/-- A pending transaction that verifies against `cbS0`'s utxo set. -/
def poolTxn : Transaction :=
  { id := 500, payer := 9, payee := 8, value := 5, timestamp := 1,
    input_utxos := [pIn], output_utxos := [pOut] }

/-- Node 9 with `MAX_BLOCK_LENGTH = 1` and one verifying pending transaction. -/
def cbS0 : NodeState :=
  { id := 9
    blockchain :=
      { root := gB, current_block := gB, blocks := [(0, gB)],
        cached_blocks := [] }
    utxo_set := [(100, gU), (200, pIn)]
    own_utxo := []
    transactions := [(500, poolTxn)]
    peers := []
    block_queue := []
    MAX_BLOCK_LENGTH := 1 }

/-- Node 9's state with room for two transactions per block, used to exercise
the cap of `create_block`. -/
def cbS1 : NodeState :=
  { cbS0 with MAX_BLOCK_LENGTH := 3 }

/-- A transaction unknown to `recvS0`, delivered by peer 1. -/
def freshTxn : Transaction :=
  { id := 600, payer := 1, payee := 2, value := 3, timestamp := 4,
    input_utxos := [], output_utxos := [] }

/-- Node 4 with peers 1 and 2, about to receive `freshTxn` from peer 1. -/
def recvS0 : NodeState :=
  { id := 4
    blockchain :=
      { root := gB, current_block := gB, blocks := [(0, gB)],
        cached_blocks := [] }
    utxo_set := [(100, gU)]
    own_utxo := []
    transactions := []
    peers := [1, 2]
    block_queue := []
    MAX_BLOCK_LENGTH := 10 }

/-! ## Claim theorems -/

/-- C1: the claim says the Simulator constructor completes for every valid
configuration.  On the source it cannot: `Simulator.create_nodes` builds the
genesis block passing an `account_balance` keyword that `Block.__init__`
(blockchain.py:70) does not declare, and builds every node without the
required `utxo_set` parameter of `Node.__init__` (network.py:12-13) — passing
a `node_label` keyword it does not declare for the adversary.  Under Python
keyword binding all three call shapes raise `TypeError`, so the constructor
never completes. -/
theorem claim_c1_constructor_calls_ill_formed :
    pyKwCallOk blockInitParams genesisBlockCallKwargs = false ∧
    pyKwCallOk nodeInitParams honestNodeCallKwargs = false ∧
    pyKwCallOk nodeInitParams advNodeCallKwargs = false := by
  decide

/-- C2: at the concrete input, node 7 accepts `cBlk`, a sibling-branch block
whose position is exactly the tip's position + 1; the code swaps the node's
utxo state to the fork chain, yet `Blockchain.add_block` (whose promotion test
requires position strictly greater than tip position + 1 for a non-tip parent)
leaves the tip unchanged, and the honest receive path schedules no new mining —
refuting the promotion and mining-restart parts of the claim. -/
theorem claim_c2_sibling_overtake_not_promoted :
    (Node.receive_block forkS1 cBlk).2 = true ∧
    cBlk.block_position = forkS1.blockchain.current_block.block_position + 1 ∧
    forkS2.blockchain.current_block = aB ∧
    forkS2.utxo_set = [(100, gU), (102, bU), (103, cU)] ∧
    (EventHandler.receiveBlockHonest forkS1 cBlk 3).2.2 = none := by
  decide

/-- C3: the claim says the tip's position is always maximal over the store.
After node 7 processes `bBlk` and `cBlk`, its store holds `cBlk` at position 2
while the tip is still `aB` at position 1, so the tip is not of maximal
position. -/
theorem claim_c3_tip_not_maximal :
    forkS2.blockchain.current_block.block_position = 1 ∧
    (PyDict.get forkS2.blockchain.blocks cBlk.id).map Block.block_position =
      some 2 := by
  decide

/-- C5: the claim says the sending peer is never scheduled a re-delivery.  The
guards at event_handler.py:95 and 244 compare `peer_id` (an `int`) with an
`event_creator` that is a `Node` object on the `RECV_TXN` and honest
`RECV_BLOCK` paths, and `int == Node` is always `False` in Python, so the
sender (peer 1 here) is among the scheduled recipients. -/
theorem claim_c5_sender_rescheduled :
    (EventHandler.recvTxnStep recvS0 freshTxn (PyVal.nodeObj 1)).2 = [1, 2] ∧
    EventHandler.gossipRecipients [1, 2] (PyVal.nodeObj 1) = [1, 2] := by
  decide

/-- C8: the claim says the hash powers always sum to 1, for every attack type.
The denominator at simulator.py:125 counts `num_nodes - 1` honest nodes even
when `attack_type = 0` and all `num_nodes` nodes are honest: with two nodes, no
low-hash nodes and no adversary, each node receives hash power 1 and the total
is 2.  With an adversary present the same formula does normalize to 1. -/
theorem claim_c8_hash_sum_not_one :
    Simulator.totalHash 0 0 2 0 [] = 2 ∧
    Simulator.totalHash 1 (1 / 4) 4 1 [2] = 1 := by
  constructor <;>
  · norm_num [Simulator.totalHash, Simulator.nodeHash, Simulator.hash_power,
      List.range_succ]

/-- C9 counterexample: the claim says no event with time at or beyond the
horizon is ever dispatched.  With horizon 10 and a single queued event at time
50, the inner loop checks only the previously dispatched time (0 < 1) before
popping, so the driver dispatches the time-50 event. -/
theorem claim_c9_overshoot_dispatched :
    Simulator.run_simulation (fun _ => []) 5 10 [⟨50, 0⟩] = [⟨50, 0⟩] ∧
    (10 : Rat) ≤ (50 : Rat) := by
  decide

/-- C10 counterexample: the claim caps the candidate's transactions at
`MAX_BLOCK_LENGTH - 1`.  With `MAX_BLOCK_LENGTH = 1` the loop's equality test
`counter == MAX_BLOCK_LENGTH - 1` (network.py:191) never fires, and node 9's
candidate block contains 1 > 0 transactions. -/
theorem claim_c10_cap_never_fires :
    (Node.create_block cbS0).1.transactions.length = 1 ∧
    cbS0.MAX_BLOCK_LENGTH - 1 = 0 := by
  constructor
  · norm_num [Node.create_block, Node.cbLoop, Node.verify_transaction,
      Block.init, PyDict.contains, PyDict.get, cbS0, poolTxn, pIn, pOut, gU]
  · rfl

/-- C7: an `END_MINING` event whose candidate was built on a parent block the
tip has since moved past (the parent is no longer the tip, and the tip's
position now exceeds the parent's position `p`, while the candidate carries
position `p + 1`) changes nothing: the state (store, utxo set, pool and
adversary queue) is returned untouched, no block is gossiped, and no follow-up
event is produced. -/
theorem claim_c7_stale_end_mining_noop (s : NodeState) (node_label : Nat)
    (block : Block) (t : Rat) (p : Nat)
    (hpar : block.parent_block_id ≠ some s.blockchain.current_block.id)
    (hpos : block.block_position = p + 1)
    (htip : p < s.blockchain.current_block.block_position) :
    EventHandler.endMiningStep s node_label block t = (s, [], none) := by
  unfold EventHandler.endMiningStep
  have hne : ¬ (block.block_position =
      s.blockchain.current_block.block_position + 1) := by omega
  simp [hne]

/-- C7 witness: node 7's tip is `aB` (position 1); the stale candidate `bBlk`
was built on the genesis (position 0), and the `END_MINING` event for it is a
no-op. -/
theorem claim_c7_stale_end_mining_noop_witness :
    bBlk.parent_block_id ≠ some forkS0.blockchain.current_block.id ∧
    EventHandler.endMiningStep forkS0 0 bBlk 5 = (forkS0, [], none) :=
  ⟨by decide,
   claim_c7_stale_end_mining_noop forkS0 0 bBlk 5 0 (by decide) rfl (by decide)⟩

/-- Helper: `Node.receive_block` never touches the adversary's private queue. -/
theorem receive_block_block_queue (s : NodeState) (b : Block) :
    (Node.receive_block s b).1.block_queue = s.block_queue := by
  unfold Node.receive_block
  dsimp only
  repeat' split
  all_goals rfl

/-- Helper: `Node.receive_block_cached` never touches the adversary's private
queue either (parking only writes the orphan table). -/
theorem receive_block_cached_block_queue (s : NodeState) (b : Block) :
    (Node.receive_block_cached s b).1.block_queue = s.block_queue := by
  unfold Node.receive_block_cached
  dsimp only
  repeat' split
  all_goals first
    | rfl
    | exact receive_block_block_queue s b

/-- C4: a received block whose parent id is absent from the store is parked in
the orphan table keyed by that parent id, with no other state change, no
gossip and no mining restart; and once the parent P is later accepted, the
orphan O parked under P.id is recursively accepted and both accepted blocks
are handed to the gossip routine, in order. -/
theorem claim_c4_orphan_park_and_recover :
    (∀ (s : NodeState) (B : Block) (pid fuel : Nat),
      B.parent_block_id = some pid →
      PyDict.contains s.blockchain.blocks pid = false →
      PyDict.contains s.blockchain.blocks B.id = false →
      EventHandler.receiveBlockHonest s B (fuel + 1) =
        ({ s with blockchain :=
            { s.blockchain with
                cached_blocks := PyDict.set s.blockchain.cached_blocks pid B } },
         [], none)) ∧
    (∀ (s s1 s2 : NodeState) (P O : Block) (fuel : Nat),
      Node.receive_block_cached s P = (s1, true) →
      PyDict.get s1.blockchain.cached_blocks P.id = some O →
      Node.receive_block_cached s1 O = (s2, true) →
      PyDict.get s2.blockchain.cached_blocks O.id = none →
      (EventHandler.receiveBlockHonest s P (fuel + 2)).2.1 = [P, O]) := by
  constructor
  · intro s B pid fuel hpar hnp hnb
    simp [EventHandler.receiveBlockHonest, EventHandler.receiveBlockLoop,
      Node.receive_block_cached, hpar, hnp, hnb]
  · intro s s1 s2 P O fuel h1 hc1 h2 hc2
    simp [EventHandler.receiveBlockHonest, EventHandler.receiveBlockLoop,
      h1, hc1, h2, hc2]
    split <;> rfl

/-- C4 witness: node 8 parks `cBlk` (child before parent), then accepting
`bBlk` recursively accepts and gossips both. -/
theorem claim_c4_orphan_park_and_recover_witness :
    EventHandler.receiveBlockHonest orphanS0 cBlk 1 =
      ({ orphanS0 with blockchain :=
          { orphanS0.blockchain with
              cached_blocks := PyDict.set orphanS0.blockchain.cached_blocks 2 cBlk } },
       [], none) ∧
    (EventHandler.receiveBlockHonest orphanS1 bBlk 2).2.1 = [bBlk, cBlk] :=
  ⟨claim_c4_orphan_park_and_recover.1 orphanS0 cBlk 2 0 rfl (by decide) (by decide),
   claim_c4_orphan_park_and_recover.2 orphanS1 orphanS2 orphanS3 bBlk cBlk 0
     rfl rfl rfl rfl⟩

/-- C6: the selfish adversary's release policy on processing one incoming block
H.  If the receive fails the queue is untouched and nothing is released.  If H
is accepted: when H became the adversary's own tip the private queue is
emptied; otherwise, a queue of exactly two blocks whose head matches H's
position is released whole and in order, a non-empty queue of another length
with a matching head releases exactly its head, and in every other case the
queue is unchanged with nothing released. -/
theorem claim_c6_selfish_release_policy (s : NodeState) (H : Block) :
    ((Node.receive_block_cached s H).2 = false →
      (EventHandler.selfishStep s H).1.block_queue = s.block_queue ∧
      (EventHandler.selfishStep s H).2.1 = []) ∧
    (∀ s1 : NodeState, Node.receive_block_cached s H = (s1, true) →
      (H.id = s1.blockchain.current_block.id →
        (EventHandler.selfishStep s H).1.block_queue = []) ∧
      (H.id ≠ s1.blockchain.current_block.id →
        (s.block_queue.length = 2 →
          (s.block_queue.head?).map Block.block_position = some H.block_position →
          (EventHandler.selfishStep s H).2.1 = s.block_queue ∧
          (EventHandler.selfishStep s H).1.block_queue = []) ∧
        (s.block_queue.length ≠ 2 → s.block_queue ≠ [] →
          (s.block_queue.head?).map Block.block_position = some H.block_position →
          (EventHandler.selfishStep s H).2.1 = s.block_queue.take 1 ∧
          (EventHandler.selfishStep s H).1.block_queue = s.block_queue.tail) ∧
        ((s.block_queue.head?).map Block.block_position ≠ some H.block_position →
          (EventHandler.selfishStep s H).1.block_queue = s.block_queue ∧
          (EventHandler.selfishStep s H).2.1 = []))) := by
  constructor
  · intro hf
    constructor
    · simp [EventHandler.selfishStep, hf]
      exact receive_block_cached_block_queue s H
    · simp [EventHandler.selfishStep, hf]
  · intro s1 h1
    have hq1 : s1.block_queue = s.block_queue := by
      have h := receive_block_cached_block_queue s H
      rw [h1] at h
      exact h
    constructor
    · intro htip
      simp [EventHandler.selfishStep, h1, EventHandler.selfishIter, htip]
    · intro hnt
      refine ⟨?_, ?_, ?_⟩
      · intro hlen hhead
        obtain ⟨q0, q1, hsq⟩ := List.length_eq_two.mp hlen
        rw [hsq] at hhead
        simp at hhead
        simp [EventHandler.selfishStep, h1, EventHandler.selfishIter, hnt,
          hq1, hsq, hhead]
      · intro hlen hne hhead
        cases hsq : s.block_queue with
        | nil => exact absurd hsq hne
        | cons q0 qrest =>
          rw [hsq] at hhead
          simp at hhead
          rw [hsq] at hlen
          have hql : ¬ qrest.length = 1 := by
            simp at hlen
            omega
          simp [EventHandler.selfishStep, h1, EventHandler.selfishIter, hnt,
            hq1, hsq, hhead, hql]
      · intro hhead
        cases hsq : s.block_queue with
        | nil =>
          simp [EventHandler.selfishStep, h1, EventHandler.selfishIter, hnt,
            hq1, hsq]
        | cons q0 qrest =>
          rw [hsq] at hhead
          simp at hhead
          simp [EventHandler.selfishStep, h1, EventHandler.selfishIter, hnt,
            hq1, hsq, hhead]

/-- C6 witness: the adversary with a two-block private lead, matched at the
head by the incoming honest block, releases its whole queue in order and ends
with an empty queue. -/
theorem claim_c6_selfish_release_policy_witness :
    (EventHandler.selfishStep advS0 honestB).2.1 = advS0.block_queue ∧
    (EventHandler.selfishStep advS0 honestB).1.block_queue = [] :=
  (((claim_c6_selfish_release_policy advS0 honestB).2 advS1 rfl).2
    (by decide)).1 rfl rfl

/-- Helper: `popEarliest` returns `none` only on the empty queue. -/
theorem popEarliest_eq_none (q : List Simulator.SimEvent)
    (h : Simulator.popEarliest q = none) : q = [] := by
  cases q with
  | nil => rfl
  | cons e rest =>
    cases h2 : Simulator.popEarliest rest with
    | none => simp [Simulator.popEarliest, h2] at h
    | some p =>
      simp only [Simulator.popEarliest, h2] at h
      split at h <;> simp at h

/-- Helper: `popEarliest` returns a member of the queue of minimal time, and
the remaining queue is drawn from the original one. -/
theorem popEarliest_spec :
    ∀ (q : List Simulator.SimEvent) (e : Simulator.SimEvent)
      (q2 : List Simulator.SimEvent),
    Simulator.popEarliest q = some (e, q2) →
    e ∈ q ∧ (∀ x ∈ q2, x ∈ q) ∧ (∀ x ∈ q, e.time ≤ x.time) := by
  intro q
  induction q with
  | nil => intro e q2 h; simp [Simulator.popEarliest] at h
  | cons a rest ih =>
    intro e q2 h
    cases h2 : Simulator.popEarliest rest with
    | none =>
      have hrest : rest = [] := popEarliest_eq_none rest h2
      subst hrest
      simp only [Simulator.popEarliest] at h
      obtain ⟨he, hq2⟩ : a = e ∧ [] = q2 := by
        constructor <;> [exact congrArg Prod.fst (Option.some.inj h);
          exact congrArg Prod.snd (Option.some.inj h)]
      subst he
      subst hq2
      refine ⟨List.mem_singleton_self a, by simp, ?_⟩
      intro x hx
      rw [List.mem_singleton.mp hx]
    | some p =>
      obtain ⟨m, rest2⟩ := p
      obtain ⟨hm, hsub, hmin⟩ := ih m rest2 h2
      simp only [Simulator.popEarliest, h2] at h
      by_cases hle : a.time ≤ m.time
      · rw [if_pos hle] at h
        obtain ⟨he, hq2⟩ : a = e ∧ rest = q2 := by
          constructor <;> [exact congrArg Prod.fst (Option.some.inj h);
            exact congrArg Prod.snd (Option.some.inj h)]
        subst he
        subst hq2
        refine ⟨List.mem_cons_self a rest, fun x hx => List.mem_cons_of_mem a hx, ?_⟩
        intro x hx
        rcases List.mem_cons.mp hx with hxa | hxr
        · rw [hxa]
        · exact le_trans hle (hmin x hxr)
      · rw [if_neg hle] at h
        obtain ⟨he, hq2⟩ : m = e ∧ a :: rest2 = q2 := by
          constructor <;> [exact congrArg Prod.fst (Option.some.inj h);
            exact congrArg Prod.snd (Option.some.inj h)]
        subst he
        subst hq2
        refine ⟨List.mem_cons_of_mem a hm, ?_, ?_⟩
        · intro x hx
          rcases List.mem_cons.mp hx with hxa | hxr
          · rw [hxa]; exact List.mem_cons_self a rest
          · exact List.mem_cons_of_mem a (hsub x hxr)
        · intro x hx
          rcases List.mem_cons.mp hx with hxa | hxr
          · rw [hxa]; exact le_of_lt (lt_of_not_le hle)
          · exact hmin x hxr

/-- Helper: invariants of the driver's inner loop: the clock never decreases,
every queued event is at or after the clock, the dispatch log is sorted by
time, bounded by the clock, and (except its last entry) strictly below any
bound B that dominates the period. -/
theorem innerLoop_inv (handler : Simulator.SimEvent → List Simulator.SimEvent)
    (hmono : ∀ e x, x ∈ handler e → e.time ≤ x.time) (B : Rat) :
    ∀ (fuel : Nat) (period ct : Rat)
      (q acc : List Simulator.SimEvent),
    period ≤ B →
    (∀ x ∈ q, ct ≤ x.time) →
    (∀ x ∈ acc, x.time ≤ ct) →
    List.Chain' (fun a b => a.time ≤ b.time) acc →
    (∀ x ∈ acc.dropLast, x.time < B) →
    (∀ x ∈ (Simulator.innerLoop handler fuel period ct q acc).2.1,
       (Simulator.innerLoop handler fuel period ct q acc).1 ≤ x.time) ∧
    (∀ x ∈ (Simulator.innerLoop handler fuel period ct q acc).2.2,
       x.time ≤ (Simulator.innerLoop handler fuel period ct q acc).1) ∧
    List.Chain' (fun a b => a.time ≤ b.time)
      (Simulator.innerLoop handler fuel period ct q acc).2.2 ∧
    (∀ x ∈ (Simulator.innerLoop handler fuel period ct q acc).2.2.dropLast,
       x.time < B) ∧
    ct ≤ (Simulator.innerLoop handler fuel period ct q acc).1 := by
  intro fuel
  induction fuel with
  | zero =>
    intro period ct q acc hP hq hacc hch hdl
    exact ⟨hq, hacc, hch, hdl, le_refl ct⟩
  | succ n ih =>
    intro period ct q acc hP hq hacc hch hdl
    by_cases hct : ct < period
    · cases hpop : Simulator.popEarliest q with
      | none =>
        simp only [Simulator.innerLoop, if_pos hct, hpop]
        exact ⟨hq, hacc, hch, hdl, le_refl ct⟩
      | some p =>
        obtain ⟨e, q2⟩ := p
        obtain ⟨heq, hsub, hmin⟩ := popEarliest_spec q e q2 hpop
        have hcte : ct ≤ e.time := hq e heq
        have H := ih period e.time (q2 ++ handler e) (acc ++ [e]) hP
          (by
            intro x hx
            rcases List.mem_append.mp hx with hx2 | hxh
            · exact hmin x (hsub x hx2)
            · exact hmono e x hxh)
          (by
            intro x hx
            rcases List.mem_append.mp hx with hxa | hxe
            · exact le_trans (hacc x hxa) hcte
            · rw [List.mem_singleton.mp hxe])
          (by
            refine List.Chain'.append hch (List.chain'_singleton e) ?_
            intro x hx y hy
            rw [List.head?_cons] at hy
            rw [Option.mem_some_iff.mp hy.symm] at *
            obtain ⟨hne, hx2⟩ := List.mem_getLast?_eq_getLast hx
            exact le_trans (hacc x (hx2 ▸ List.getLast_mem hne)) hcte)
          (by
            rw [List.dropLast_concat]
            intro x hx
            exact lt_of_le_of_lt (hacc x hx) (lt_of_lt_of_le hct hP))
        simp only [Simulator.innerLoop, if_pos hct, hpop]
        exact ⟨H.1, H.2.1, H.2.2.1, H.2.2.2.1, le_trans hcte H.2.2.2.2⟩
    · simp only [Simulator.innerLoop, if_neg hct]
      exact ⟨hq, hacc, hch, hdl, le_refl ct⟩

/-- Helper: every period boundary produced by `periodsList` is at most the
final boundary `periodFinal`. -/
theorem mem_periodsList_le_periodFinal (simulation_time : Rat) (P : Nat)
    (hP : P ∈ Simulator.periodsList simulation_time) :
    P ≤ Simulator.periodFinal simulation_time := by
  unfold Simulator.periodsList at hP
  obtain ⟨k, hk, rfl⟩ := List.mem_map.mp hP
  rw [List.mem_range] at hk
  exact Nat.mul_le_mul_right _ hk

/-- Helper: the per-period fold of the driver keeps the dispatch log sorted and
(except its last entry) strictly below any bound B dominating every period. -/
theorem foldPeriods_inv (handler : Simulator.SimEvent → List Simulator.SimEvent)
    (hmono : ∀ e x, x ∈ handler e → e.time ≤ x.time) (B : Rat) :
    ∀ (ps : List Nat) (fuel : Nat) (ct : Rat)
      (q acc : List Simulator.SimEvent),
    (∀ P ∈ ps, (P : Rat) ≤ B) →
    (∀ x ∈ q, ct ≤ x.time) →
    (∀ x ∈ acc, x.time ≤ ct) →
    List.Chain' (fun a b => a.time ≤ b.time) acc →
    (∀ x ∈ acc.dropLast, x.time < B) →
    List.Chain' (fun a b => a.time ≤ b.time)
      (ps.foldl (fun st period =>
        Simulator.innerLoop handler fuel (period : Rat) st.1 st.2.1 st.2.2)
        (ct, q, acc)).2.2 ∧
    (∀ x ∈ (ps.foldl (fun st period =>
        Simulator.innerLoop handler fuel (period : Rat) st.1 st.2.1 st.2.2)
        (ct, q, acc)).2.2.dropLast, x.time < B) := by
  intro ps
  induction ps with
  | nil =>
    intro fuel ct q acc hps hq hacc hch hdl
    exact ⟨hch, hdl⟩
  | cons P ps ih =>
    intro fuel ct q acc hps hq hacc hch hdl
    have hPB : (P : Rat) ≤ B := hps P (List.mem_cons_self P ps)
    have H := innerLoop_inv handler hmono B fuel (P : Rat) ct q acc hPB hq hacc
      hch hdl
    exact ih fuel _ _ _ (fun Q hQ => hps Q (List.mem_cons_of_mem P hQ))
      H.1 H.2.1 H.2.2.1 H.2.2.2.1

/-- C9 (amended): provided every event the handler schedules is at or after the
handled event's time and the initial queue holds no negative times, the driver
dispatches events in non-decreasing time order; the horizon check compares the
previously dispatched event's time with the period boundary, so every
dispatched event except possibly the last lies strictly below the final
boundary `periodFinal` — the first event at or past it is itself dispatched,
last. -/
theorem claim_c9_amended_dispatch_order
    (handler : Simulator.SimEvent → List Simulator.SimEvent) (fuel : Nat)
    (simulation_time : Rat) (q0 : List Simulator.SimEvent)
    (hmono : ∀ e x, x ∈ handler e → e.time ≤ x.time)
    (h0 : ∀ x ∈ q0, 0 ≤ x.time) :
    List.Chain' (fun a b => a.time ≤ b.time)
      (Simulator.run_simulation handler fuel simulation_time q0) ∧
    (∀ x ∈ (Simulator.run_simulation handler fuel simulation_time q0).dropLast,
       x.time < (Simulator.periodFinal simulation_time : Rat)) := by
  unfold Simulator.run_simulation
  exact foldPeriods_inv handler hmono
    (Simulator.periodFinal simulation_time : Rat)
    (Simulator.periodsList simulation_time) fuel 0 q0 []
    (fun P hP => Nat.cast_le.mpr (mem_periodsList_le_periodFinal _ P hP))
    h0 (by simp) List.chain'_nil (by simp)

/-- C9 witness: a horizon-10 run over two events at times 2 and 50 with a
handler that schedules nothing. -/
theorem claim_c9_amended_dispatch_order_witness :
    List.Chain' (fun a b => a.time ≤ b.time)
      (Simulator.run_simulation (fun _ => []) 5 10
        [⟨2, 0⟩, ⟨50, 1⟩]) ∧
    (∀ x ∈ (Simulator.run_simulation (fun _ => []) 5 10
        [⟨2, 0⟩, ⟨50, 1⟩]).dropLast,
       x.time < (Simulator.periodFinal 10 : Rat)) :=
  claim_c9_amended_dispatch_order (fun _ => []) 5 10 [⟨2, 0⟩, ⟨50, 1⟩]
    (fun e x hx => absurd hx (List.not_mem_nil x))
    (by decide)

/-- Helper: full characterization of the `create_block` loop.  Some prefix of
length k of the pool snapshot is examined: the examined entries that verify are
kept (in order) both in the candidate and in the pool, the examined entries
that fail verification are deleted from the pool, and the unexamined suffix is
untouched; when the examined-transaction counter starts below
`maxLen - 1`, at most `maxLen - 1 - c` entries are examined. -/
theorem cbLoop_char (u : List (Nat × Utxo)) (M : Nat) :
    ∀ (pool : List (Nat × Transaction)) (c : Nat) (ub : List Nat),
    ∃ k,
      (c < M - 1 → k ≤ M - 1 - c) ∧
      (Node.cbLoop u M pool c ub).1 =
        ((pool.take k).filter
          (fun e => Node.verify_transaction e.2 u)).map Prod.snd ∧
      (Node.cbLoop u M pool c ub).2 =
        (pool.take k).filter (fun e => Node.verify_transaction e.2 u) ++
          pool.drop k := by
  intro pool
  induction pool with
  | nil =>
    intro c ub
    exact ⟨0, fun _ => Nat.zero_le _, by simp [Node.cbLoop], by simp [Node.cbLoop]⟩
  | cons e rest ih =>
    intro c ub
    obtain ⟨tid, txn⟩ := e
    by_cases hbrk : c + 1 = M - 1
    · refine ⟨1, fun hc => by omega, ?_, ?_⟩ <;>
      · simp only [Node.cbLoop, if_pos hbrk]
        by_cases hok : Node.verify_transaction txn u = true
        · simp [hok]
        · simp [hok]
    · obtain ⟨k, hk, h1, h2⟩ := ih (c + 1)
        (txn.input_utxos.foldl
          (fun acc u2 => if acc.contains u2.id then acc else acc ++ [u2.id]) ub)
      refine ⟨k + 1, fun hc => by
        have hlt : c + 1 < M - 1 := by omega
        have := hk hlt
        omega, ?_, ?_⟩
      · simp only [Node.cbLoop]
        rw [if_neg hbrk]
        cases hok : Node.verify_transaction txn u with
        | true =>
          simp only [hok, List.take_succ_cons, List.filter_cons, h1,
            eq_self_iff_true, ite_true, List.map_cons]
        | false =>
          simp only [hok, List.take_succ_cons, List.filter_cons, h1,
            Bool.false_eq_true, ite_false]
      · simp only [Node.cbLoop]
        rw [if_neg hbrk]
        cases hok : Node.verify_transaction txn u with
        | true =>
          simp only [hok, List.take_succ_cons, List.filter_cons, h2,
            List.drop_succ_cons, eq_self_iff_true, ite_true, List.cons_append]
        | false =>
          simp only [hok, List.take_succ_cons, List.filter_cons, h2,
            List.drop_succ_cons, Bool.false_eq_true, ite_false]

/-- C10 (amended): `create_block` mutates only the pending pool: the returned
state keeps the blockchain, utxo set and owned utxos (and everything else)
unchanged, while the pool loses exactly the examined transactions that failed
verification against the current utxo set; the candidate holds only verifying
transactions, at most `MAX_BLOCK_LENGTH - 1` of them whenever
`MAX_BLOCK_LENGTH ≥ 2` (for `MAX_BLOCK_LENGTH = 1` the cap never fires), and is
parented on the tip with the coinbase utxo of 50 for the creator. -/
theorem claim_c10_create_block_frame (s : NodeState) :
    ((Node.create_block s).2.blockchain = s.blockchain ∧
     (Node.create_block s).2.utxo_set = s.utxo_set ∧
     (Node.create_block s).2.own_utxo = s.own_utxo) ∧
    (∀ t ∈ (Node.create_block s).1.transactions,
       Node.verify_transaction t s.utxo_set = true) ∧
    (2 ≤ s.MAX_BLOCK_LENGTH →
       (Node.create_block s).1.transactions.length ≤ s.MAX_BLOCK_LENGTH - 1) ∧
    (∃ k, (Node.create_block s).2.transactions =
       (s.transactions.take k).filter
         (fun e => Node.verify_transaction e.2 s.utxo_set) ++
       s.transactions.drop k) ∧
    (Node.create_block s).1.parent_block_id =
      some s.blockchain.current_block.id ∧
    (Node.create_block s).1.block_position =
      s.blockchain.current_block.block_position + 1 ∧
    (Node.create_block s).1.miner_utxo.owner = s.id ∧
    (Node.create_block s).1.miner_utxo.value = 50 := by
  obtain ⟨k, hk, h1, h2⟩ :=
    cbLoop_char s.utxo_set s.MAX_BLOCK_LENGTH s.transactions 0 []
  have e1 : (Node.create_block s).1.transactions =
      (Node.cbLoop s.utxo_set s.MAX_BLOCK_LENGTH s.transactions 0 []).1 := rfl
  have e2 : (Node.create_block s).2.transactions =
      (Node.cbLoop s.utxo_set s.MAX_BLOCK_LENGTH s.transactions 0 []).2 := rfl
  refine ⟨⟨rfl, rfl, rfl⟩, ?_, ?_, ⟨k, ?_⟩, rfl, rfl, rfl, rfl⟩
  · intro t ht
    rw [e1, h1] at ht
    obtain ⟨p, hmem, hsnd⟩ := List.mem_map.mp ht
    have hp := List.of_mem_filter hmem
    rw [← hsnd]
    exact hp
  · intro hM
    have hkb := hk (by omega)
    rw [e1, h1, List.length_map]
    have hf := List.length_filter_le
      (fun e => Node.verify_transaction e.2 s.utxo_set) (s.transactions.take k)
    have ht := List.length_take_le k s.transactions
    omega
  · rw [e2, h2]

/-- C10 witness: with `MAX_BLOCK_LENGTH = 3` node 9's candidate respects the
cap of 2 transactions. -/
theorem claim_c10_create_block_frame_witness :
    2 ≤ cbS1.MAX_BLOCK_LENGTH ∧
    (Node.create_block cbS1).1.transactions.length ≤
      cbS1.MAX_BLOCK_LENGTH - 1 :=
  ⟨by decide, (claim_c10_create_block_frame cbS1).2.2.1 (by decide)⟩

end Crypto
